import Mathlib

/-!
Verification of the `SlurmMultiNodePool` repository (file `slurm_pool/main.py`).

The development shallowly embeds the Python source:

* `pySlice l start step` models the Python slice `l[start::step]` (for
  `step ≥ 1`, the elements at indices `start, start+step, start+2*step, ...`).
  It is computed with a fuel counter (`fuel = l.length` always suffices,
  since `start` strictly increases each step) so that it is structurally
  recursive and kernel-reducible.
* `PoolState` models the attribute record of a `SlurmMultiNodePool` instance;
  `createTask2ArgsMapping` models `_create_task2args_mapping` (the leading
  underscore is dropped for Lean), returning the number of `warnings.warn`
  calls performed alongside the updated state.
* `create_python_script` / `create_slurm_script` / `create_job` model the
  artifact generators.  A Python method that either raises or writes a file
  is modelled as `Except PyError (String × String)` where the `ok` payload is
  the single `(file name, file content)` write it performs; an `error` result
  models a raise that happens before the write statement is reached.
* `wrapperRun` / `scriptMain` model the runtime behaviour of the generated
  worker script (its `wrapper` function and its `__main__` block): they
  return the trace of user-function invocations (argument and keyword
  arguments of each call, in order) together with the terminal error, if any.
-/

/-- Fuel-driven computation of the Python slice `l[start::step]`.
With `fuel ≥ l.length - start` and `step ≥ 1` this produces the elements of
`l` at indices `start, start + step, start + 2*step, ...`. -/
def pySliceAux (fuel : Nat) (l : List α) (start step : Nat) : List α :=
  match fuel with
  | 0 => []
  | fuel + 1 =>
    if h : start < l.length ∧ 0 < step then
      l.get ⟨start, h.1⟩ :: pySliceAux fuel l (start + step) step
    else []

/-- The Python slice `l[start::step]` (for a positive step). -/
def pySlice (l : List α) (start step : Nat) : List α :=
  pySliceAux l.length l start step

theorem pySliceAux_getElem? (step : Nat) (ht : 0 < step) :
    ∀ (fuel : Nat) (l : List α) (start j : Nat), l.length - start ≤ fuel →
      (pySliceAux fuel l start step)[j]? = l[start + j * step]? := by
  intro fuel
  induction fuel with
  | zero =>
    intro l start j hf
    simp only [pySliceAux]
    rw [List.getElem?_nil, eq_comm, List.getElem?_eq_none]
    have : l.length ≤ start := by omega
    exact le_trans this (Nat.le_add_right _ _)
  | succ fuel ih =>
    intro l start j hf
    simp only [pySliceAux]
    split
    · rename_i h
      cases j with
      | zero =>
        rw [List.getElem?_cons_zero, Nat.mul_comm, Nat.mul_zero, Nat.add_zero,
          List.getElem?_eq_getElem h.1, List.get_eq_getElem]
      | succ j =>
        rw [List.getElem?_cons_succ, ih l (start + step) j (by omega)]
        have harith : start + step + j * step = start + (j + 1) * step := by ring
        rw [harith]
    · rename_i h
      have hs : l.length ≤ start := by
        rcases Nat.lt_or_ge start l.length with hlt | hge
        · exact absurd ⟨hlt, ht⟩ h
        · exact hge
      rw [List.getElem?_nil, eq_comm, List.getElem?_eq_none]
      exact le_trans hs (Nat.le_add_right _ _)

theorem pySlice_getElem? (l : List α) (start step j : Nat) (ht : 0 < step) :
    (pySlice l start step)[j]? = l[start + j * step]? :=
  pySliceAux_getElem? step ht l.length l start j (Nat.sub_le _ _)

theorem pySliceAux_length (step : Nat) (ht : 0 < step) :
    ∀ (fuel : Nat) (l : List α) (start : Nat), l.length - start ≤ fuel →
      (pySliceAux fuel l start step).length = (l.length - start + (step - 1)) / step := by
  intro fuel
  induction fuel with
  | zero =>
    intro l start hf
    have h0 : l.length - start = 0 := by omega
    simp only [pySliceAux, List.length_nil, h0, Nat.zero_add]
    rw [Nat.div_eq_of_lt (by omega)]
  | succ fuel ih =>
    intro l start hf
    simp only [pySliceAux]
    split
    · rename_i h
      rw [List.length_cons, ih l (start + step) (by omega)]
      rcases Nat.lt_or_ge (l.length - start) step with hlt | hge
      · -- fewer than `step` elements remain: both sides are 1
        have h1 : l.length - (start + step) + (step - 1) = step - 1 := by omega
        rw [h1, Nat.div_eq_of_lt (by omega)]
        have h2 : (l.length - start + (step - 1)) / step = 1 :=
          Nat.div_eq_of_lt_le (by omega) (by omega)
        rw [h2]
      · -- at least `step` elements remain
        have h1 : l.length - (start + step) + (step - 1) = l.length - start - 1 := by
          omega
        have h2 : l.length - start + (step - 1) = (l.length - start - 1) + step := by
          omega
        rw [h1, h2, Nat.add_div_right _ ht]
    · rename_i h
      have hs : l.length ≤ start := by
        rcases Nat.lt_or_ge start l.length with hlt | hge
        · exact absurd ⟨hlt, ht⟩ h
        · exact hge
      have h0 : l.length - start = 0 := by omega
      simp only [List.length_nil, h0, Nat.zero_add]
      rw [Nat.div_eq_of_lt (by omega)]

theorem pySlice_length (l : List α) (start step : Nat) (ht : 0 < step) :
    (pySlice l start step).length = (l.length - start + (step - 1)) / step :=
  pySliceAux_length step ht l.length l start (Nat.sub_le _ _)

theorem pySlice_nil (start step : Nat) : pySlice ([] : List α) start step = [] := by
  simp [pySlice, pySliceAux]

theorem pySlice_cons_succ (a : α) (l : List α) (start step : Nat) (ht : 0 < step) :
    pySlice (a :: l) (start + 1) step = pySlice l start step := by
  apply List.ext_getElem?
  intro j
  rw [pySlice_getElem? _ _ _ _ ht, pySlice_getElem? _ _ _ _ ht]
  have harith : start + 1 + j * step = (start + j * step) + 1 := by omega
  rw [harith, List.getElem?_cons_succ]

theorem pySlice_cons_zero (a : α) (l : List α) (step : Nat) (ht : 0 < step) :
    pySlice (a :: l) 0 step = a :: pySlice l (step - 1) step := by
  apply List.ext_getElem?
  intro j
  rw [pySlice_getElem? _ _ _ _ ht]
  cases j with
  | zero => simp
  | succ j =>
    rw [List.getElem?_cons_succ, pySlice_getElem? _ _ _ _ ht]
    have hmul : (j + 1) * step = j * step + step := Nat.succ_mul j step
    have harith : 0 + (j + 1) * step = (step - 1 + j * step) + 1 := by omega
    rw [harith, List.getElem?_cons_succ]

/-- Sum of the lengths of all `step` stride-slices of `l` is `l.length`. -/
theorem pySlice_sum_lengths (step : Nat) (ht : 0 < step) :
    ∀ l : List α,
      ((List.range step).map (fun i => (pySlice l i step).length)).sum = l.length := by
  obtain ⟨t, rfl⟩ : ∃ t, step = t + 1 := ⟨step - 1, by omega⟩
  intro l
  induction l with
  | nil => simp [pySlice_nil]
  | cons a l ih =>
    rw [List.range_succ_eq_map]
    simp only [List.map_cons, List.map_map, List.sum_cons]
    have hzero : pySlice (a :: l) 0 (t + 1) = a :: pySlice l t (t + 1) := by
      have h := pySlice_cons_zero a l (t + 1) ht
      simpa using h
    have hmapeq :
        (List.range t).map ((fun i => (pySlice (a :: l) i (t + 1)).length) ∘ Nat.succ) =
        (List.range t).map (fun i => (pySlice l i (t + 1)).length) := by
      apply List.map_congr_left
      intro i _
      simp only [Function.comp_apply]
      rw [show Nat.succ i = i + 1 from rfl, pySlice_cons_succ a l i (t + 1) ht]
    rw [hmapeq, hzero, List.length_cons]
    have hsplit :
        ((List.range (t + 1)).map (fun i => (pySlice l i (t + 1)).length)).sum =
        ((List.range t).map (fun i => (pySlice l i (t + 1)).length)).sum
          + (pySlice l t (t + 1)).length := by
      rw [List.range_succ, List.map_append, List.sum_append]
      simp
    rw [hsplit] at ih
    simp only [List.length_cons]
    omega

/-- The user task function as embedded into the generated artifact: `src`
models `textwrap.dedent(inspect.getsource(f))` and `name` models
`f.__name__`. -/
structure TaskFunction where
  src : String
  name : String
deriving DecidableEq

/-- The `ValueError`s raised by the artifact generators. -/
inductive PyError where
  | functionNotSet
  | mappingNotSet
deriving DecidableEq

/-- The message text of each `ValueError` raised by the source. -/
def PyError.message : PyError → String
  | PyError.functionNotSet =>
      "Task function not set. Use the set_task_function method to set it."
  | PyError.mappingNotSet =>
      "Arguments mapping not set. Please ensure you run _create_task2args_mapping before creating the script."

/-- Attribute record of a `SlurmMultiNodePool` instance; `α` is the type of
the positional task-argument values. -/
structure PoolState (α : Type) where
  num_tasks : Nat
  job_name : String
  log_dir : String
  time_limit : String
  mem_limit : String
  email : String
  partition : String
  slurm_script_name : String
  python_script_name : String
  cpus_per_task : Nat
  task_function : Option TaskFunction
  task2args_map : Option (List (Nat × List α))
  kwargs : Option (List (String × String))
deriving DecidableEq

/-- `SlurmMultiNodePool.__init__`.  `uid` models the `uuid.uuid4()` value
drawn once at construction time (external randomness passed in as an input);
both auto-generated artifact names are derived from this single value.  In
the source `partition` defaults to `'owners'` and `cpus_per_task` to `1`. -/
def initPool (α : Type) (num_tasks : Nat)
    (job_name log_directory time_limit mem_limit email : String)
    (partitionName : String) (python_script_name slurm_script_name : Option String)
    (cpus_per_task : Nat) (uid : String) : PoolState α :=
  { num_tasks := num_tasks
    job_name := job_name
    log_dir := log_directory
    time_limit := time_limit
    mem_limit := mem_limit
    email := email
    partition := partitionName
    slurm_script_name := slurm_script_name.getD (job_name ++ "_" ++ uid ++ ".slurm")
    python_script_name := python_script_name.getD (job_name ++ "_" ++ uid ++ ".py")
    cpus_per_task := cpus_per_task
    task_function := none
    task2args_map := none
    kwargs := none }

/-- Python truthiness of `self._task_function` (a function object is always
truthy, `None` is falsy). -/
def functionTruthy : Option TaskFunction → Bool
  | none => false
  | some _ => true

/-- Python truthiness of `self._task2args_map`: `None` and the empty dict are
both falsy. -/
def mappingTruthy : Option (List (Nat × List α)) → Bool
  | none => false
  | some m => !m.isEmpty

/-- `_create_task2args_mapping(self, *args)`.  Returns the number of
`warnings.warn` calls performed during the call together with the updated
instance state.  The loop
`for i in range(self.num_tasks): mapping[i] = args[i::self.num_tasks]`
is modelled by mapping over `List.range`, preserving dict insertion order. -/
def createTask2ArgsMapping (s : PoolState α) (args : List α) : Nat × PoolState α :=
  let warned := if args.length < s.num_tasks then 1 else 0
  let nt := if args.length < s.num_tasks then args.length else s.num_tasks
  let mapping := (List.range nt).map (fun i => (i, pySlice args i nt))
  (warned, { s with num_tasks := nt, task2args_map := some mapping })

/-- Python `str()` of the kwargs dict; values are stored as their already
rendered `repr` strings, keys render single-quoted. -/
def dictRepr (kw : List (String × String)) : String :=
  "\x7b" ++ String.intercalate ", "
    (kw.map (fun p => "\x27" ++ p.1 ++ "\x27: " ++ p.2)) ++ "\x7d"

/-- Python `str()` of a tuple of arguments (`*args` is a tuple and slicing a
tuple yields a tuple): `()`, `(a,)`, `(a, b, ...)`. -/
def tupleRepr (reprArg : α → String) : List α → String
  | [] => "()"
  | [a] => "(" ++ reprArg a ++ ",)"
  | l => "(" ++ String.intercalate ", " (l.map reprArg) ++ ")"

/-- Python `str()` of the task mapping dict `{0: (...), 1: (...), ...}`. -/
def mappingRepr (reprArg : α → String) (m : List (Nat × List α)) : String :=
  "\x7b" ++ String.intercalate ", "
    (m.map (fun p => toString p.1 ++ ": " ++ tupleRepr reprArg p.2)) ++ "\x7d"

/-- The `wrapper` helper source embedded into every generated worker script
(after `textwrap.dedent`). -/
def wrapper_func_code : String :=
  "\ndef wrapper(func, args_list, kwargs):\n    for arg in args_list:\n        if kwargs:\n            func(arg, **kwargs)\n        else:\n            func(arg)\n"

/-- `create_python_script(self)`: raises unless the task function and a
truthy (non-empty) mapping are present; otherwise renders the worker script
text and writes it to `self.python_script_name` (the write is the `ok`
payload).  `reprArg` renders one argument value the way Python renders it
inside the interpolated dict literal. -/
def create_python_script (reprArg : α → String) (s : PoolState α) :
    Except PyError (String × String) :=
  if !functionTruthy s.task_function then
    Except.error PyError.functionNotSet
  else if !mappingTruthy s.task2args_map then
    Except.error PyError.mappingNotSet
  else
    let fn := s.task_function.getD { src := "", name := "" }
    let task_func_code := fn.src
    let kwargs_code := "kwargs = " ++ dictRepr (s.kwargs.getD [])
    let python_code :=
      "\nimport sys\nimport logging\n\n" ++ task_func_code ++ "\n\n"
        ++ wrapper_func_code
        ++ "\n\nif __name__ == \x27__main__\x27:\n    task_id = int(sys.argv[1])\n    "
        ++ kwargs_code
        ++ "\n    mapping = " ++ mappingRepr reprArg (s.task2args_map.getD [])
        ++ "\n    args_list = mapping.get(task_id, [])\n    if not args_list:\n        raise ValueError(f\"No arguments found for task_id \x7btask_id\x7d.\")\n\n    logging.basicConfig(level=logging.INFO, format=\x27%(asctime)s [%(levelname)s] %(message)s\x27)\n    logging.info(f\"Task \x7btask_id\x7d: Processing arguments \x7bargs_list\x7d with kwargs \x7bkwargs\x7d\")\n\n    # Here, we\x27re calling the wrapper function, passing in the task function, arguments, and kwargs for this task\n    wrapper("
        ++ fn.name
        ++ ", args_list, kwargs)\n    logging.info(f\"Task \x7btask_id\x7d: finished successfully.\")\n"
    Except.ok (s.python_script_name, python_code)

/-- The `#SBATCH` directives preceding the `--array` line of the submission
descriptor (after `textwrap.dedent`). -/
def slurmHeader (s : PoolState α) : String :=
  "#!/bin/bash\n\n## add additional SBATCH directives here\n#SBATCH --partition=" ++ s.partition
    ++ "\n#SBATCH --job-name=" ++ s.job_name
    ++ "\n#SBATCH --output=" ++ s.log_dir ++ "/%j.log"
    ++ "\n#SBATCH --time=" ++ s.time_limit
    ++ "\n#SBATCH --mem=" ++ s.mem_limit
    ++ "\n#SBATCH --cpus-per-task=" ++ toString s.cpus_per_task
    ++ "\n#SBATCH --mail-type=FAIL\n#SBATCH --mail-user=" ++ s.email
    ++ "\n"

/-- The module-loading and invocation lines following the `--array` line. -/
def slurmFooter (s : PoolState α) : String :=
  "\n\n# load modules, adjust to your needs\nml devel\nml python/3.9.0\n\n# execute the Python code, this should stay as is.\npython3 "
    ++ s.python_script_name ++ " $\x7bSLURM_ARRAY_TASK_ID\x7d\n"

/-- The full submission descriptor text; `array_upper_limit` is
`self.num_tasks - 1` computed in Python (signed) arithmetic. -/
def slurm_script_text (s : PoolState α) : String :=
  let array_upper_limit : Int := (s.num_tasks : Int) - 1
  slurmHeader s ++ "#SBATCH --array=0-" ++ toString array_upper_limit ++ slurmFooter s

/-- `create_slurm_script(self)`: the source performs no precondition check;
it unconditionally renders the descriptor text and writes it to
`self.slurm_script_name`.  The `Except` wrapper is the same raise-or-write
model used for the other generator; this method has no raise path. -/
def create_slurm_script (s : PoolState α) : Except PyError (String × String) :=
  Except.ok (s.slurm_script_name, slurm_script_text s)

/-- `create_job(self, task_function, *args, **kwargs)`: binds the function
and kwargs, builds the mapping, then renders both artifacts.  Returns the
number of warnings raised, the final instance state, and the files written,
in program order. -/
def create_job (reprArg : α → String) (s : PoolState α) (task_function : TaskFunction)
    (args : List α) (kwargs : List (String × String)) :
    Except PyError (Nat × PoolState α × List (String × String)) :=
  let s1 := { s with task_function := some task_function, kwargs := some kwargs }
  let ws := createTask2ArgsMapping s1 args
  match create_python_script reprArg ws.2 with
  | Except.error e => Except.error e
  | Except.ok py =>
    match create_slurm_script ws.2 with
    | Except.error e => Except.error e
    | Except.ok sl => Except.ok (ws.1, ws.2, [py, sl])

/-- Runtime errors of the generated worker script. -/
inductive ScriptError (ε : Type) where
  | noArgs (task_id : Nat)
  | funcError (e : ε)
deriving DecidableEq

/-- Message of the fatal missing-shard error raised by the generated
script. -/
def noArgsMessage (task_id : Nat) : String :=
  "No arguments found for task_id " ++ toString task_id ++ "."

/-- Runtime behaviour of the generated `wrapper` function: calls `func` once
per shard value, in shard order, passing the embedded kwargs dict to every
call (`func(arg, **kwargs)` when the dict is truthy, `func(arg)` — an empty
kwargs dict — otherwise).  Returns the trace of calls made (argument and
keyword arguments of each) and the first exception, which aborts the loop. -/
def wrapperRun (f : α → List (String × ν) → Except ε Unit)
    (kwargs : List (String × ν)) : List α → List (α × List (String × ν)) × Option ε
  | [] => ([], none)
  | a :: rest =>
    let used := if !kwargs.isEmpty then kwargs else []
    match f a used with
    | Except.ok _ =>
      let r := wrapperRun f kwargs rest
      ((a, used) :: r.1, r.2)
    | Except.error e => ([(a, used)], some e)

/-- Runtime behaviour of the `__main__` block of the generated worker script,
given the embedded mapping, kwargs and function behaviour, and the `task_id`
command-line argument (a SLURM array index, hence nonnegative).  Returns the
trace of user-function invocations and the terminal error, if any. -/
def scriptMain (mapping : List (Nat × List α)) (kwargs : List (String × ν))
    (f : α → List (String × ν) → Except ε Unit) (task_id : Nat) :
    List (α × List (String × ν)) × Option (ScriptError ε) :=
  let args_list := (mapping.lookup task_id).getD []
  if args_list.isEmpty then ([], some (ScriptError.noArgs task_id))
  else
    let r := wrapperRun f kwargs args_list
    (r.1, r.2.map ScriptError.funcError)

/-- `mapping.get(i, [])` on the generated mapping. -/
def shardOf (m : List (Nat × List α)) (i : Nat) : List α :=
  (m.lookup i).getD []

theorem lookup_range_map (f : Nat → β) :
    ∀ (n j : Nat), ((List.range n).map (fun i => (i, f i))).lookup j
      = if j < n then some (f j) else none := by
  intro n
  induction n with
  | zero => intro j; simp
  | succ n ih =>
    intro j
    rw [List.range_succ, List.map_append, List.lookup_append, ih]
    rcases Nat.lt_trichotomy j n with h | h | h
    · rw [if_pos h, if_pos (by omega)]
      rfl
    · subst h
      rw [if_neg (by omega), if_pos (by omega)]
      simp [List.lookup]
    · rw [if_neg (by omega), if_neg (by omega)]
      have hne : (j == n) = false := by
        simp only [beq_eq_false_iff_ne, ne_eq]
        omega
      simp [List.lookup, hne]

theorem shardOf_mapping (args : List α) (nt i : Nat) :
    shardOf ((List.range nt).map (fun i => (i, pySlice args i nt))) i
      = if i < nt then pySlice args i nt else [] := by
  rw [shardOf, lookup_range_map (fun i => pySlice args i nt) nt i]
  split <;> rfl

theorem filterMap_range_eq_take (A : List α) :
    ∀ (n : Nat) (g : Nat → Option α), n ≤ A.length → (∀ k, k < n → g k = A[k]?) →
      (List.range n).filterMap g = A.take n := by
  intro n
  induction n with
  | zero =>
    intro g _ _
    simp
  | succ n ih =>
    intro g hn hg
    rw [List.range_succ, List.filterMap_append, ih g (by omega) (fun k hk => hg k (by omega))]
    have hsingle : List.filterMap g [n] = (g n).toList := by
      cases hgn : g n <;> simp [List.filterMap_cons, hgn]
    rw [hsingle, hg n (by omega), List.take_succ]

/-- The mapping the source stores is, definitionally, the range-indexed list
of stride slices taken at the effective (stored) task count. -/
theorem createMapping_map_eq (s : PoolState α) (A : List α) :
    ((createTask2ArgsMapping s A).2).task2args_map
      = some ((List.range ((createTask2ArgsMapping s A).2.num_tasks)).map
          (fun i => (i, pySlice A i ((createTask2ArgsMapping s A).2.num_tasks)))) := rfl

theorem createTask2ArgsMapping_no_shrink (s : PoolState α) (A : List α)
    (h : ¬ A.length < s.num_tasks) :
    createTask2ArgsMapping s A
      = (0, { s with
              num_tasks := s.num_tasks
              task2args_map := some ((List.range s.num_tasks).map
                (fun i => (i, pySlice A i s.num_tasks))) }) := by
  simp only [createTask2ArgsMapping, if_neg h]

/-- Round-robin reconstruction property of the stored mapping: every stored
shard entry is an element of `args` at position `j * T + i` (shard `i`,
offset `j`), and reading position `k` of `args` back from shard `k % T` at
offset `k / T` reproduces `args` exactly. -/
def RoundRobinReconstructs (s : PoolState α) (args : List α) : Prop :=
  ∃ m, ((createTask2ArgsMapping s args).2).task2args_map = some m ∧
    (∀ i j, ((shardOf m i)[j]?).isSome →
      i < s.num_tasks ∧ j * s.num_tasks + i < args.length ∧
        (shardOf m i)[j]? = args[j * s.num_tasks + i]?) ∧
    (List.range args.length).filterMap
        (fun k => (shardOf m (k % s.num_tasks))[k / s.num_tasks]?) = args

/-- Claim C1: for task count `T ≥ 1` and at least `T` arguments, the mapping
built by `_create_task2args_mapping` assigns every argument to exactly one
shard position, and round-robin interleaving of the shards in task-index
order (element `j` of shard `i` at position `j*T + i`) reconstructs the
argument sequence exactly, preserving order and multiplicity. -/
theorem partition_roundrobin_reconstructs (s : PoolState α) (args : List α)
    (h1 : 1 ≤ s.num_tasks) (h2 : s.num_tasks ≤ args.length) :
    RoundRobinReconstructs s args := by
  have hnl : ¬ args.length < s.num_tasks := by omega
  refine ⟨(List.range s.num_tasks).map (fun i => (i, pySlice args i s.num_tasks)),
    ?_, ?_, ?_⟩
  · rw [createTask2ArgsMapping_no_shrink s args hnl]
  · intro i j hsome
    rw [shardOf_mapping] at hsome ⊢
    by_cases hi : i < s.num_tasks
    · rw [if_pos hi] at hsome ⊢
      rw [pySlice_getElem? _ _ _ _ h1] at hsome ⊢
      have hlt : i + j * s.num_tasks < args.length := by
        by_contra hge
        rw [List.getElem?_eq_none (by omega)] at hsome
        simp at hsome
      refine ⟨hi, by omega, ?_⟩
      congr 1
      omega
    · rw [if_neg hi] at hsome
      simp at hsome
  · have hg : ∀ k, k < args.length →
        (shardOf ((List.range s.num_tasks).map
            (fun i => (i, pySlice args i s.num_tasks))) (k % s.num_tasks))[k / s.num_tasks]?
          = args[k]? := by
      intro k hk
      rw [shardOf_mapping, if_pos (Nat.mod_lt _ h1), pySlice_getElem? _ _ _ _ h1]
      congr 1
      have hmd := Nat.mod_add_div k s.num_tasks
      have hmul : k / s.num_tasks * s.num_tasks = s.num_tasks * (k / s.num_tasks) :=
        Nat.mul_comm _ _
      omega
    have := filterMap_range_eq_take args args.length _ (le_refl _) hg
    rw [List.take_length] at this
    exact this

/-- Balanced-partition property of the stored mapping: exactly the keys
`0..T-1` in order, shard lengths summing to the argument count, and any two
shard lengths within 1 of each other. -/
def EvenPartition (s : PoolState α) (args : List α) : Prop :=
  ∃ m, ((createTask2ArgsMapping s args).2).task2args_map = some m ∧
    m.map Prod.fst = List.range s.num_tasks ∧
    (m.map (fun p => p.2.length)).sum = args.length ∧
    ∀ p ∈ m, ∀ q ∈ m, p.2.length ≤ q.2.length + 1

/-- Claim C2: for `1 ≤ T ≤ len(args)`, the mapping has exactly the `T` keys
`0..T-1`, its shard sizes differ by at most 1 pairwise, and the shard sizes
sum to `len(args)`. -/
theorem partition_even_distribution (s : PoolState α) (args : List α)
    (h1 : 1 ≤ s.num_tasks) (h2 : s.num_tasks ≤ args.length) :
    EvenPartition s args := by
  have hnl : ¬ args.length < s.num_tasks := by omega
  refine ⟨(List.range s.num_tasks).map (fun i => (i, pySlice args i s.num_tasks)),
    ?_, ?_, ?_, ?_⟩
  · rw [createTask2ArgsMapping_no_shrink s args hnl]
  · rw [List.map_map]
    have hcomp : (Prod.fst ∘ fun i => (i, pySlice args i s.num_tasks))
        = @id Nat := rfl
    rw [hcomp, List.map_id]
  · rw [List.map_map]
    exact pySlice_sum_lengths s.num_tasks h1 args
  · intro p hp q hq
    simp only [List.mem_map, List.mem_range] at hp hq
    obtain ⟨i, hi, rfl⟩ := hp
    obtain ⟨i2, hi2, rfl⟩ := hq
    simp only
    rw [pySlice_length _ _ _ h1, pySlice_length _ _ _ h1]
    have hup : (args.length - i + (s.num_tasks - 1)) / s.num_tasks
        ≤ args.length / s.num_tasks + 1 := by
      have h3 : args.length - i + (s.num_tasks - 1) ≤ args.length + s.num_tasks := by
        omega
      have h4 : (args.length - i + (s.num_tasks - 1)) / s.num_tasks
          ≤ (args.length + s.num_tasks) / s.num_tasks := Nat.div_le_div_right h3
      rw [Nat.add_div_right _ h1] at h4
      exact h4
    have hlo : args.length / s.num_tasks
        ≤ (args.length - i2 + (s.num_tasks - 1)) / s.num_tasks := by
      have h5 : args.length ≤ args.length - i2 + (s.num_tasks - 1) := by omega
      exact Nat.div_le_div_right h5
    omega

/-- Claim C3: when there are fewer arguments than configured tasks, the task
count is shrunk to the argument count, exactly one warning is raised, and
every stored shard is non-empty; otherwise no warning is raised and the task
count is unchanged. -/
theorem partition_shrink_warning (s : PoolState α) (args : List α) :
    (args.length < s.num_tasks →
      (createTask2ArgsMapping s args).1 = 1 ∧
      ((createTask2ArgsMapping s args).2).num_tasks = args.length ∧
      ∀ m, ((createTask2ArgsMapping s args).2).task2args_map = some m →
        ∀ p ∈ m, p.2 ≠ []) ∧
    (s.num_tasks ≤ args.length →
      (createTask2ArgsMapping s args).1 = 0 ∧
      ((createTask2ArgsMapping s args).2).num_tasks = s.num_tasks) := by
  constructor
  · intro h
    simp only [createTask2ArgsMapping, if_pos h]
    refine ⟨by trivial, by trivial, ?_⟩
    intro m hm p hp
    simp only [Option.some.injEq] at hm
    subst hm
    simp only [List.mem_map, List.mem_range] at hp
    obtain ⟨i, hi, rfl⟩ := hp
    simp only [ne_eq]
    intro hnil
    have hlen : (pySlice args i args.length).length = 0 := by rw [hnil]; rfl
    rw [pySlice_length _ _ _ (by omega)] at hlen
    have hge : 1 ≤ (args.length - i + (args.length - 1)) / args.length := by
      rw [Nat.le_div_iff_mul_le (by omega)]
      omega
    omega
  · intro h
    simp only [createTask2ArgsMapping, if_neg (by omega : ¬ args.length < s.num_tasks)]
    exact ⟨by trivial, by trivial⟩

/-- Claim C4: after a successful `create_job` pipeline, the submission
descriptor declares array bounds `0-(effective_task_count - 1)` where the
effective task count equals the number of keys of the mapping embedded in
the worker script — the two never diverge. -/
theorem create_job_array_bounds_match_mapping (reprArg : α → String)
    (s : PoolState α) (f : TaskFunction) (args : List α)
    (kw : List (String × String)) (w : Nat) (s2 : PoolState α)
    (files : List (String × String))
    (h : create_job reprArg s f args kw = Except.ok (w, s2, files)) :
    ∃ m, s2.task2args_map = some m ∧ s2.num_tasks = m.length ∧
      files.length = 2 ∧
      files[1]? = some (s2.slurm_script_name,
        slurmHeader s2 ++ "#SBATCH --array=0-" ++ toString ((m.length : Int) - 1)
          ++ slurmFooter s2) := by
  simp only [create_job, create_slurm_script] at h
  split at h
  · exact absurd h (by simp)
  · rename_i py heq
    simp only [Except.ok.injEq, Prod.mk.injEq] at h
    obtain ⟨hw, hs2, hfiles⟩ := h
    have hmap := createMapping_map_eq
      { s with task_function := some f, kwargs := some kw } args
    rw [hs2] at hmap hfiles
    refine ⟨_, hmap, ?_, ?_, ?_⟩
    · rw [List.length_map, List.length_range]
    · rw [← hfiles]
      rfl
    · rw [← hfiles]
      simp only [List.length_map, List.length_range]
      rfl

theorem poolstate_bind_self (s : PoolState α) (f : TaskFunction)
    (kw : List (String × String)) (h1 : s.task_function = some f)
    (h2 : s.kwargs = some kw) :
    { s with task_function := some f, kwargs := some kw } = s := by
  cases s
  simp_all

theorem poolstate_mapping_update_self (s : PoolState α) (nt : Nat)
    (m : Option (List (Nat × List α))) (h1 : nt = s.num_tasks)
    (h2 : m = s.task2args_map) :
    { s with num_tasks := nt, task2args_map := m } = s := by
  cases s
  simp_all

/-- Claim C9: a successful `create_job` leaves the instance in a state from
which re-running `create_job` with the same function, arguments and kwargs
succeeds without further warnings, reproduces the byte-identical artifact
files, and keeps the script file names fixed at construction time. -/
theorem create_job_idempotent (reprArg : α → String) (s : PoolState α)
    (f : TaskFunction) (args : List α) (kw : List (String × String))
    (w : Nat) (s2 : PoolState α) (files : List (String × String))
    (h : create_job reprArg s f args kw = Except.ok (w, s2, files)) :
    s2.python_script_name = s.python_script_name ∧
    s2.slurm_script_name = s.slurm_script_name ∧
    create_job reprArg s2 f args kw = Except.ok (0, s2, files) := by
  simp only [create_job, create_slurm_script] at h
  split at h
  · exact absurd h (by simp)
  · rename_i py heq
    simp only [Except.ok.injEq, Prod.mk.injEq] at h
    obtain ⟨hw, hs2, hfiles⟩ := h
    have hfn : s2.task_function = some f := by rw [← hs2]; rfl
    have hkw : s2.kwargs = some kw := by rw [← hs2]; rfl
    have hname1 : s2.python_script_name = s.python_script_name := by
      rw [← hs2]; rfl
    have hname2 : s2.slurm_script_name = s.slurm_script_name := by
      rw [← hs2]; rfl
    have hnt : ¬ args.length < s2.num_tasks := by
      rw [← hs2]
      by_cases hc : args.length < s.num_tasks
      · simp only [createTask2ArgsMapping, if_pos hc]
        omega
      · simp only [createTask2ArgsMapping, if_neg hc]
        have hx : ({ s with task_function := some f, kwargs := some kw } :
            PoolState α).num_tasks = s.num_tasks := rfl
        omega
    have hstab : createTask2ArgsMapping s2 args = (0, s2) := by
      rw [createTask2ArgsMapping_no_shrink s2 args hnt]
      have hm2 : some ((List.range s2.num_tasks).map
          (fun i => (i, pySlice args i s2.num_tasks))) = s2.task2args_map := by
        rw [← hs2]
        exact (createMapping_map_eq _ args).symm
      rw [Prod.mk.injEq]
      exact ⟨rfl, poolstate_mapping_update_self s2 _ _ rfl hm2⟩
    rw [hs2] at heq hfiles
    refine ⟨hname1, hname2, ?_⟩
    simp only [create_job, create_slurm_script]
    rw [poolstate_bind_self s2 f kw hfn hkw, hstab]
    simp only [heq]
    rw [hfiles]

/-- A freshly constructed instance: no task function, no mapping bound. -/
def freshPool : PoolState Nat :=
  initPool Nat 4 "job" "logs" "00:10:00" "1G" "user@example.com" "owners" none none
    1 "uid0"

/-- Claim C5 counterexample: invoked on a fresh instance whose task function
and mapping are both unset, `create_slurm_script` does not raise — it
succeeds and performs its descriptor write. -/
theorem create_slurm_script_unbound_counterexample :
    freshPool.task_function = none ∧ freshPool.task2args_map = none ∧
    create_slurm_script freshPool
      = Except.ok (freshPool.slurm_script_name, slurm_script_text freshPool) :=
  ⟨rfl, rfl, rfl⟩

/-- Claim C5 (amended): `create_slurm_script` itself performs no precondition
check and always succeeds with its write; but inside the `create_job`
pipeline the worker-script generator runs first, so when it raises a
configuration error the pipeline stops with that error and the descriptor is
never written. -/
theorem create_slurm_script_no_precondition_check (reprArg : α → String)
    (s : PoolState α) (f : TaskFunction) (args : List α)
    (kw : List (String × String)) :
    create_slurm_script s = Except.ok (s.slurm_script_name, slurm_script_text s) ∧
    (∀ e, create_python_script reprArg
        ((createTask2ArgsMapping
          { s with task_function := some f, kwargs := some kw } args).2)
          = Except.error e →
      create_job reprArg s f args kw = Except.error e) := by
  refine ⟨rfl, ?_⟩
  intro e he
  simp only [create_job, he]

/-- Claim C6: rendering the worker script with the task function unset, or
with the mapping unset, raises a configuration error; in the raise-or-write
model the error result carries no file write. -/
theorem create_python_script_errors_when_unbound (reprArg : α → String)
    (s : PoolState α)
    (h : s.task_function = none ∨ s.task2args_map = none) :
    ∃ e, create_python_script reprArg s = Except.error e := by
  rcases h with h | h
  · exact ⟨PyError.functionNotSet, by simp [create_python_script, h, functionTruthy]⟩
  · cases hfn : s.task_function with
    | none =>
      exact ⟨PyError.functionNotSet,
        by simp [create_python_script, hfn, functionTruthy]⟩
    | some fn =>
      exact ⟨PyError.mappingNotSet,
        by simp [create_python_script, hfn, h, functionTruthy, mappingTruthy]⟩

/-- Claim C7: for a task id absent from the embedded mapping, or mapped to an
empty shard, the generated worker script terminates with the fatal
no-arguments error and performs no user-function invocation (empty call
trace). -/
theorem script_missing_task_id_fatal (mapping : List (Nat × List α))
    (kw : List (String × ν)) (f : α → List (String × ν) → Except ε Unit)
    (task_id : Nat)
    (h : mapping.lookup task_id = none ∨ mapping.lookup task_id = some []) :
    scriptMain mapping kw f task_id = ([], some (ScriptError.noArgs task_id)) ∧
    noArgsMessage task_id
      = "No arguments found for task_id " ++ toString task_id ++ "." := by
  refine ⟨?_, rfl⟩
  rcases h with h | h <;> simp [scriptMain, h]

theorem kwargs_used_eq (kw : List (String × ν)) :
    (if !kw.isEmpty then kw else []) = kw := by
  cases kw <;> rfl

theorem wrapperRun_all_ok (f : α → List (String × ν) → Except ε Unit)
    (kw : List (String × ν)) :
    ∀ L : List α, (∀ a ∈ L, f a kw = Except.ok ()) →
      wrapperRun f kw L = (L.map (fun a => (a, kw)), none) := by
  intro L
  induction L with
  | nil =>
    intro _
    rfl
  | cons a rest ih =>
    intro h
    have ha := h a (List.mem_cons_self a rest)
    simp only [wrapperRun, kwargs_used_eq, ha]
    rw [ih (fun b hb => h b (List.mem_cons_of_mem a hb))]
    rfl

theorem wrapperRun_fails_at (f : α → List (String × ν) → Except ε Unit)
    (kw : List (String × ν)) :
    ∀ (L : List α) (k : Nat) (ak : α) (e : ε),
      (∀ a ∈ L.take k, f a kw = Except.ok ()) → L[k]? = some ak →
      f ak kw = Except.error e →
      wrapperRun f kw L = ((L.take (k + 1)).map (fun a => (a, kw)), some e) := by
  intro L
  induction L with
  | nil =>
    intro k ak e _ hk _
    simp at hk
  | cons b rest ih =>
    intro k ak e hpre hk he
    cases k with
    | zero =>
      simp only [List.getElem?_cons_zero, Option.some.injEq] at hk
      subst hk
      simp only [wrapperRun, kwargs_used_eq, he]
      rfl
    | succ k =>
      have hb : f b kw = Except.ok () := by
        apply hpre b
        rw [List.take_succ_cons]
        exact List.mem_cons_self b _
      simp only [List.getElem?_cons_succ] at hk
      simp only [wrapperRun, kwargs_used_eq, hb]
      rw [ih k ak e
        (fun a ha => hpre a (by rw [List.take_succ_cons]; exact List.mem_cons_of_mem b ha))
        hk he]
      rfl

/-- Claim C8: on a valid task id, the generated worker script invokes the
embedded function once per shard value, in shard order, with the identical
embedded kwargs on every call; an exception raised on the value at index `k`
is propagated fatally: the earlier calls all completed, the failing call is
the last one made, and no later shard value is ever processed. -/
theorem script_invokes_in_order_and_propagates (mapping : List (Nat × List α))
    (kw : List (String × ν)) (f : α → List (String × ν) → Except ε Unit)
    (task_id : Nat) (L : List α)
    (hL : mapping.lookup task_id = some L) :
    (L ≠ [] → (∀ a ∈ L, f a kw = Except.ok ()) →
      scriptMain mapping kw f task_id = (L.map (fun a => (a, kw)), none)) ∧
    (∀ (k : Nat) (ak : α) (e : ε),
      (∀ a ∈ L.take k, f a kw = Except.ok ()) → L[k]? = some ak →
      f ak kw = Except.error e →
      scriptMain mapping kw f task_id
        = ((L.take (k + 1)).map (fun a => (a, kw)),
            some (ScriptError.funcError e))) := by
  constructor
  · intro hne hall
    have hemp : L.isEmpty = false := by
      cases L
      · exact absurd rfl hne
      · rfl
    simp only [scriptMain, hL, Option.getD_some, hemp, Bool.false_eq_true, if_false]
    rw [wrapperRun_all_ok f kw L hall]
    rfl
  · intro k ak e hpre hk he
    have hlen : k < L.length := by
      by_contra hge
      rw [List.getElem?_eq_none (by omega)] at hk
      simp at hk
    have hemp : L.isEmpty = false := by
      cases L
      · simp at hlen
      · rfl
    simp only [scriptMain, hL, Option.getD_some, hemp, Bool.false_eq_true, if_false]
    rw [wrapperRun_fails_at f kw L k ak e hpre hk he]
    rfl

/-- Claim C10: called on an empty argument tuple, the partitioner sets the
task count to 0 and stores the empty dict, which is falsy exactly like the
unset `None`; a subsequent worker-script generation therefore fails with the
mapping-not-set error, so `create_job` never reaches artifact generation for
zero work. -/
theorem empty_args_blocks_generation (s : PoolState α) (reprArg : α → String)
    (f : TaskFunction) (kw : List (String × String)) :
    ((createTask2ArgsMapping s []).2).num_tasks = 0 ∧
    ((createTask2ArgsMapping s []).2).task2args_map = some [] ∧
    mappingTruthy (some ([] : List (Nat × List α)))
      = mappingTruthy (none : Option (List (Nat × List α))) ∧
    (s.task_function = some f →
      create_python_script reprArg (createTask2ArgsMapping s []).2
        = Except.error PyError.mappingNotSet) ∧
    create_job reprArg s f [] kw = Except.error PyError.mappingNotSet := by
  have hnum : ∀ (s3 : PoolState α),
      ((createTask2ArgsMapping s3 []).2).num_tasks = 0 := by
    intro s3
    simp only [createTask2ArgsMapping, List.length_nil]
    by_cases hc : 0 < s3.num_tasks
    · rw [if_pos hc]
    · rw [if_neg hc]
      omega
  have hmap : ∀ (s3 : PoolState α),
      ((createTask2ArgsMapping s3 []).2).task2args_map = some [] := by
    intro s3
    rw [createMapping_map_eq s3 [], hnum s3]
    rfl
  have key : ∀ (s4 : PoolState α), functionTruthy s4.task_function = true →
      s4.task2args_map = some [] →
      create_python_script reprArg s4 = Except.error PyError.mappingNotSet := by
    intro s4 h4 h5
    simp [create_python_script, h4, h5, mappingTruthy]
  refine ⟨hnum s, hmap s, rfl, ?_, ?_⟩
  · intro hfn
    apply key
    · have hpr : ((createTask2ArgsMapping s []).2).task_function
          = s.task_function := rfl
      rw [hpr, hfn]
      rfl
    · exact hmap s
  · have h6 := key ((createTask2ArgsMapping
      { s with task_function := some f, kwargs := some kw } []).2) rfl (hmap _)
    simp only [create_job, h6]

/-- Renders a natural-number argument as Python renders it in a literal. -/
def reprNat : Nat → String := fun n => toString n

/-- A sample self-contained task function. -/
def fnW : TaskFunction :=
  { src := "def work(x):\n    print(x)\n", name := "work" }

def sPool2 : PoolState Nat :=
  initPool Nat 2 "demo" "logs" "00:10:00" "1G" "a@b.c" "owners" none none 1 "u1"

def sPool3 : PoolState Nat :=
  initPool Nat 3 "demo" "logs" "00:10:00" "1G" "a@b.c" "owners" none none 1 "u1"

def sPool5 : PoolState Nat :=
  initPool Nat 5 "demo" "logs" "00:10:00" "1G" "a@b.c" "owners" none none 1 "u1"

/-- A fresh instance with only the task function bound. -/
def sFnPool : PoolState Nat := { freshPool with task_function := some fnW }

theorem partition_roundrobin_reconstructs_witness :
    1 ≤ sPool3.num_tasks ∧ sPool3.num_tasks ≤ [10, 20, 30, 40, 50].length ∧
    RoundRobinReconstructs sPool3 [10, 20, 30, 40, 50] :=
  ⟨by decide, by decide,
    partition_roundrobin_reconstructs sPool3 [10, 20, 30, 40, 50]
      (by decide) (by decide)⟩

theorem partition_even_distribution_witness :
    1 ≤ sPool3.num_tasks ∧ sPool3.num_tasks ≤ [10, 20, 30, 40, 50].length ∧
    EvenPartition sPool3 [10, 20, 30, 40, 50] :=
  ⟨by decide, by decide,
    partition_even_distribution sPool3 [10, 20, 30, 40, 50] (by decide) (by decide)⟩

theorem partition_shrink_warning_witness :
    [1, 2].length < sPool5.num_tasks ∧
    ((createTask2ArgsMapping sPool5 [1, 2]).1 = 1 ∧
      ((createTask2ArgsMapping sPool5 [1, 2]).2).num_tasks = [1, 2].length ∧
      ∀ m, ((createTask2ArgsMapping sPool5 [1, 2]).2).task2args_map = some m →
        ∀ p ∈ m, p.2 ≠ []) :=
  ⟨by decide, (partition_shrink_warning sPool5 [1, 2]).1 (by decide)⟩

theorem create_job_array_bounds_match_mapping_witness :
    ∃ w s2 files,
      create_job reprNat sPool2 fnW [1, 2, 3] [] = Except.ok (w, s2, files) ∧
      ∃ m, s2.task2args_map = some m ∧ s2.num_tasks = m.length ∧
        files.length = 2 ∧
        files[1]? = some (s2.slurm_script_name,
          slurmHeader s2 ++ "#SBATCH --array=0-" ++ toString ((m.length : Int) - 1)
            ++ slurmFooter s2) := by
  obtain ⟨v, hv⟩ : ∃ v, create_job reprNat sPool2 fnW [1, 2, 3] [] = Except.ok v :=
    ⟨_, rfl⟩
  exact ⟨v.1, v.2.1, v.2.2, hv,
    create_job_array_bounds_match_mapping reprNat sPool2 fnW [1, 2, 3] []
      v.1 v.2.1 v.2.2 hv⟩

theorem create_slurm_script_no_precondition_check_witness :
    create_python_script reprNat
        ((createTask2ArgsMapping
          { freshPool with task_function := some fnW, kwargs := some [] }
          ([] : List Nat)).2)
      = Except.error PyError.mappingNotSet ∧
    create_job reprNat freshPool fnW [] [] = Except.error PyError.mappingNotSet := by
  have h : create_python_script reprNat
      ((createTask2ArgsMapping
        { freshPool with task_function := some fnW, kwargs := some [] }
        ([] : List Nat)).2)
      = Except.error PyError.mappingNotSet := rfl
  exact ⟨h,
    (create_slurm_script_no_precondition_check reprNat freshPool fnW [] []).2
      PyError.mappingNotSet h⟩

theorem create_python_script_errors_when_unbound_witness :
    (freshPool.task_function = none ∨ freshPool.task2args_map = none) ∧
    ∃ e, create_python_script reprNat freshPool = Except.error e :=
  ⟨Or.inl rfl,
    create_python_script_errors_when_unbound reprNat freshPool (Or.inl rfl)⟩

/-- A sample runtime behaviour that always succeeds. -/
def fOk : Nat → List (String × Nat) → Except String Unit := fun _ _ => Except.ok ()

theorem script_missing_task_id_fatal_witness :
    (List.lookup 2 [(0, [11]), (1, [22])] = none ∨
      List.lookup 2 [(0, [11]), (1, [22])] = some ([] : List Nat)) ∧
    scriptMain [(0, [11]), (1, [22])] ([] : List (String × Nat)) fOk 2
      = ([], some (ScriptError.noArgs 2)) :=
  ⟨Or.inl (by decide),
    (script_missing_task_id_fatal [(0, [11]), (1, [22])] [] fOk 2
      (Or.inl (by decide))).1⟩

/-- A sample runtime behaviour that raises on the value `20`. -/
def fBoom : Nat → List (String × String) → Except String Unit :=
  fun a _ => if a = 20 then Except.error "boom" else Except.ok ()

def kwW : List (String × String) := [("mode", "1")]

theorem script_invokes_in_order_and_propagates_witness :
    (List.lookup 0 [(0, [10, 20, 30])] = some [10, 20, 30]) ∧
    (∀ a ∈ [10, 20, 30].take 1, fBoom a kwW = Except.ok ()) ∧
    ([10, 20, 30][1]? = some 20) ∧ (fBoom 20 kwW = Except.error "boom") ∧
    scriptMain [(0, [10, 20, 30])] kwW fBoom 0
      = (([10, 20, 30].take 2).map (fun a => (a, kwW)),
          some (ScriptError.funcError "boom")) := by
  have h1 : List.lookup 0 [(0, [10, 20, 30])] = some [10, 20, 30] := by decide
  have h2 : ∀ a ∈ [10, 20, 30].take 1, fBoom a kwW = Except.ok () := by
    intro a ha
    have hx : a = 10 := by
      rw [show [10, 20, 30].take 1 = [10] from rfl] at ha
      exact List.mem_singleton.mp ha
    subst hx
    rfl
  have h3 : [10, 20, 30][1]? = some 20 := rfl
  have h4 : fBoom 20 kwW = Except.error "boom" := rfl
  exact ⟨h1, h2, h3, h4,
    (script_invokes_in_order_and_propagates [(0, [10, 20, 30])] kwW fBoom 0
      [10, 20, 30] h1).2 1 20 "boom" h2 h3 h4⟩

theorem create_job_idempotent_witness :
    ∃ w s2 files,
      create_job reprNat sPool2 fnW [5, 6, 7] kwW = Except.ok (w, s2, files) ∧
      s2.python_script_name = sPool2.python_script_name ∧
      s2.slurm_script_name = sPool2.slurm_script_name ∧
      create_job reprNat s2 fnW [5, 6, 7] kwW = Except.ok (0, s2, files) := by
  obtain ⟨v, hv⟩ : ∃ v, create_job reprNat sPool2 fnW [5, 6, 7] kwW = Except.ok v :=
    ⟨_, rfl⟩
  obtain ⟨h1, h2, h3⟩ := create_job_idempotent reprNat sPool2 fnW [5, 6, 7] kwW
    v.1 v.2.1 v.2.2 hv
  exact ⟨v.1, v.2.1, v.2.2, hv, h1, h2, h3⟩

theorem empty_args_blocks_generation_witness :
    sFnPool.task_function = some fnW ∧
    create_python_script reprNat (createTask2ArgsMapping sFnPool []).2
      = Except.error PyError.mappingNotSet ∧
    create_job reprNat sFnPool fnW [] [] = Except.error PyError.mappingNotSet :=
  ⟨rfl, (empty_args_blocks_generation sFnPool reprNat fnW []).2.2.2.1 rfl,
    (empty_args_blocks_generation sFnPool reprNat fnW []).2.2.2.2⟩
